import Mathlib

/-! Verification development for the FHIR bulk-import automation script
`import_fhir_data.py`: dataset discovery and grouping, candidate-URL
validation, import submission, and import-status polling, shallowly embedded.
Strings are modelled as Lean strings with Python string primitives
(`find`, `replace`, `endswith`, the `in` operator, slicing) re-implemented
over their character lists; the script's floating-point size arithmetic is
modelled with exact rationals; HTTP effects are passed in explicitly as
response values, and `sys.exit` calls are modelled as explicit outcome
values carrying the exit code. -/

namespace FhirImport

/-- Characters of `needle` occur at the start of `haystack`. -/
def prefixMatches : List Char → List Char → Bool
  | [], _ => true
  | _ :: _, [] => false
  | a :: as, b :: bs => a == b && prefixMatches as bs

/-- Index of the first occurrence of `needle` inside `haystack`, scanning
left to right (`none` when absent; Python `str.find` returns `-1` there). -/
def findSub (needle : List Char) : List Char → Option Nat
  | [] => if needle.isEmpty then some 0 else none
  | b :: bs =>
    if prefixMatches needle (b :: bs) then some 0
    else (findSub needle bs).map (· + 1)

/-- Python `needle in s` for strings: substring containment. -/
def containsStr (needle s : String) : Bool :=
  (findSub needle.data s.data).isSome

/-- Python `s.find(needle)`: first index of occurrence, `-1` when absent. -/
def pyFind (needle s : String) : Int :=
  match findSub needle.data s.data with
  | some i => (i : Int)
  | none => -1

/-- Left-to-right replace-all scan of Python `str.replace`, with fuel; the
fuel is instantiated with the string length, which one step per emitted or
skipped character always suffices for, so the zero-fuel branch is
unreachable from `pyReplace`. -/
def pyReplaceFuel (old new : List Char) : Nat → List Char → List Char
  | _, [] => []
  | 0, l => l
  | fuel + 1, c :: rest =>
    if !old.isEmpty && prefixMatches old (c :: rest) then
      new ++ pyReplaceFuel old new fuel (List.drop (old.length - 1) rest)
    else
      c :: pyReplaceFuel old new fuel rest

/-- Python `s.replace(old, new)` (all non-overlapping occurrences,
left to right). -/
def pyReplace (old new s : String) : String :=
  ⟨pyReplaceFuel old.data new.data s.data.length s.data⟩

/-- Python `s.endswith(suf)`. -/
def pyEndswith (s suf : String) : Bool :=
  List.isSuffixOf suf.data s.data

/-- Python `s.startswith(pre)`. -/
def pyStartswith (s pre : String) : Bool :=
  prefixMatches pre.data s.data

/-- Python slicing `s[:n]` for a non-negative bound `n`. -/
def strTake (s : String) (n : Nat) : String :=
  ⟨s.data.take n⟩

/-- Python string comparison (used by `sorted`): lexicographic on code
points, here in its non-strict form. -/
def strLeChars : List Char → List Char → Bool
  | [], _ => true
  | _ :: _, [] => false
  | a :: as, b :: bs =>
    if a.toNat < b.toNat then true
    else if b.toNat < a.toNat then false
    else strLeChars as bs

/-- Non-strict lexicographic order on strings, as a Bool. -/
def strLe (a b : String) : Bool :=
  strLeChars a.data b.data

/-- Non-strict lexicographic order on strings, as a relation for sorting. -/
def strLeRel (a b : String) : Prop :=
  strLe a b = true

instance : DecidableRel strLeRel := fun a b =>
  inferInstanceAs (Decidable (strLe a b = true))

instance : IsTotal String strLeRel := ⟨by
  have h : ∀ as bs : List Char, strLeChars as bs = true ∨ strLeChars bs as = true := by
    intro as
    induction as with
    | nil => intro bs; left; rfl
    | cons a as ih =>
      intro bs
      cases bs with
      | nil => right; rfl
      | cons b bs =>
        by_cases hab : a.toNat < b.toNat
        · left; simp [strLeChars, hab]
        · by_cases hba : b.toNat < a.toNat
          · right; simp [strLeChars, hba]
          · rcases ih bs with h1 | h1
            · left; simpa [strLeChars, hab, hba] using h1
            · right; simpa [strLeChars, hab, hba] using h1
  intro a b
  exact h a.data b.data⟩

instance : IsTrans String strLeRel := ⟨by
  have h : ∀ as bs cs : List Char, strLeChars as bs = true →
      strLeChars bs cs = true → strLeChars as cs = true := by
    intro as
    induction as with
    | nil => intro bs cs _ _; rfl
    | cons a as ih =>
      intro bs cs h1 h2
      cases bs with
      | nil => simp [strLeChars] at h1
      | cons b bs =>
        cases cs with
        | nil => simp [strLeChars] at h2
        | cons c cs =>
          simp only [strLeChars] at h1 h2 ⊢
          by_cases hab : a.toNat < b.toNat
          · by_cases hbc : b.toNat < c.toNat
            · have hac : a.toNat < c.toNat := Nat.lt_trans hab hbc
              simp [hac]
            · by_cases hcb : c.toNat < b.toNat
              · simp [hbc, hcb] at h2
              · have hac : a.toNat < c.toNat := by omega
                simp [hac]
          · by_cases hba : b.toNat < a.toNat
            · simp [hab, hba] at h1
            · by_cases hbc : b.toNat < c.toNat
              · have hac : a.toNat < c.toNat := by omega
                simp [hac]
              · by_cases hcb : c.toNat < b.toNat
                · simp [hbc, hcb] at h2
                · have h1' : strLeChars as bs = true := by simpa [hab, hba] using h1
                  have h2' : strLeChars bs cs = true := by simpa [hbc, hcb] using h2
                  have hac : ¬ a.toNat < c.toNat := by omega
                  have hca : ¬ c.toNat < a.toNat := by omega
                  simpa [hac, hca] using ih bs cs h1' h2'
  intro a b c h1 h2
  exact h a.data b.data c.data h1 h2⟩

/-- Distinct elements of a list of strings (the effect of Python `set`
before sorting; order is then canonicalised by the sort). -/
def dedupStrs : List String → List String
  | [] => []
  | x :: xs => if x ∈ xs then dedupStrs xs else x :: dedupStrs xs

/-- Base URL of the public storage bucket (module constant `BUCKET_BASE`). -/
def BUCKET_BASE : String :=
  "https://storage.googleapis.com/fhir-aggregator-public"

/-- A listed storage object: its full URL and its size in bytes (an entry of
the list produced by `list_ndjson_objects`). -/
structure StorageObject where
  url : String
  size : Nat
deriving DecidableEq

/-- A discovered dataset: aggregate size in megabytes (the script's float
division modelled as exact rational division) and the matching object URLs
in listing order. -/
structure Dataset where
  size : ℚ
  objects : List String
deriving DecidableEq

/-- Relative path of an object URL: the script's
`_["url"].replace(BUCKET_BASE + "/", "")`. -/
def relPath (url : String) : String :=
  pyReplace (BUCKET_BASE ++ "/") "" url

/-- Dataset-name derivation from a relative path: the script's
`_[:_.find("META") + len("META")]`.  When the marker is absent, Python
`find` yields `-1` and the slice bound is `-1 + 4 = 3`. -/
def deriveName (rel : String) : String :=
  strTake rel (pyFind "META" rel + (String.length "META" : Int)).toNat

/-- Dataset grouping of `discover_datasets`, as a function of the listed
objects (the listing itself is the Object Lister's paginated HTTP I/O,
abstracted here as the input).  Derived names are collected, deduplicated
and sorted; each name selects every object whose full URL contains it as a
substring. -/
def discover_datasets (objects : List StorageObject) : List (String × Dataset) :=
  let projects := objects.map (fun o => relPath o.url)
  let names := (dedupStrs (projects.map deriveName)).insertionSort strLeRel
  names.map (fun project =>
    let projectObjects := (objects.filter (fun o => containsStr project o.url)).map (fun o => o.url)
    let size : ℚ :=
      ((((objects.filter (fun o => containsStr project o.url)).map (fun o => o.size)).sum : ℕ) : ℚ) /
        (1024 * 1024)
    (project, { size := size, objects := projectObjects }))

/-- A single issue of an OperationOutcome body, with the fields the script
reads: `severity`, `details.text` and `diagnostics`, each possibly absent. -/
structure Issue where
  severity : Option String
  details : Option String
  diagnostics : Option String
deriving DecidableEq

/-- Parsed JSON body of a poll response, with the fields the script reads:
`resourceType` and the `issue` list, each possibly absent. -/
structure StatusData where
  resourceType : Option String
  issue : Option (List Issue)
deriving DecidableEq

/-- One HTTP response of the status endpoint: the Content-Type header
(defaulted to the empty string when missing), the status code, and the
parsed body. -/
structure PollResponse where
  contentType : String
  statusCode : Nat
  body : StatusData
deriving DecidableEq

/-- Effect of one iteration of the polling loop: a fatal protocol error
(`sys.exit(1)`), another round after the sleep (202), or a terminal
OperationOutcome, whose classification and exit code are recorded
(the script reaches `sys.exit(0)` on both classifications). -/
inductive PollStep where
  | fatalExit (code : Nat)
  | pending
  | terminal (ok : Bool) (code : Nat)
deriving DecidableEq

/-- Issue-severity scan of the terminal branch:
`ok = ok and (issue.get("severity", "unknown") != "error")` folded over the
issue list starting from `True`. -/
def classifyIssues (issues : List Issue) : Bool :=
  issues.foldl (fun ok issue => ok && (issue.severity.getD "unknown" != "error")) true

/-- One iteration of `poll_import_status` on a received response: the
content-type guard, the 202 in-progress case, the non-200 guard, the
OperationOutcome shape guard, then the severity scan; every terminal
branch of the script exits with code 0. -/
def poll_step (resp : PollResponse) : PollStep :=
  if !containsStr "json" resp.contentType then .fatalExit 1
  else if resp.statusCode == 202 then .pending
  else if resp.statusCode != 200 then .fatalExit 1
  else if resp.body.resourceType != some "OperationOutcome" then .fatalExit 1
  else .terminal (classifyIssues (resp.body.issue.getD [])) 0

/-- Final effect of the polling loop: a fatal protocol exit, or a terminal
classification with its exit code. -/
inductive PollResult where
  | fatal (exitCode : Nat)
  | completed (succeeded : Bool) (exitCode : Nat)
deriving DecidableEq

/-- The polling loop of `poll_import_status`, driven by the finite script of
responses the server returns; `none` means the script was exhausted while
the job was still in progress (the loop would still be sleeping and
re-polling). -/
def poll_import_status : List PollResponse → Option PollResult
  | [] => none
  | resp :: rest =>
    match poll_step resp with
    | .fatalExit code => some (.fatal code)
    | .pending => poll_import_status rest
    | .terminal ok code => some (.completed ok code)

/-- Outcome of a HEAD probe that connected: status code and Content-Type
header (defaulted to the empty string when missing). -/
structure HeadResp where
  statusCode : Nat
  contentType : String
deriving DecidableEq

/-- The URL-validation loop inside `submit_import`: per URL, a raised
exception (`none` probe outcome), a non-200 status, or a Content-Type
without "json" each exclude the URL and continue; otherwise the URL is
appended to the valid list. -/
def validate_urls (probe : String → Option HeadResp) : List String → List String
  | [] => []
  | u :: rest =>
    match probe u with
    | none => validate_urls probe rest
    | some h =>
      if h.statusCode != 200 then validate_urls probe rest
      else if !containsStr "json" h.contentType then validate_urls probe rest
      else u :: validate_urls probe rest

/-- The three per-URL checks of the validation loop as one predicate: the
probe connected, returned 200, and its Content-Type contains "json". -/
def urlPasses (probe : String → Option HeadResp) (u : String) : Bool :=
  match probe u with
  | none => false
  | some h => h.statusCode == 200 && containsStr "json" h.contentType

/-- Observable HTTP request of the submission flow: a HEAD probe of a
candidate URL, the POST of the `$import` request carrying the valid URLs,
or the start of status polling for a dataset. -/
inductive Action where
  | headProbe (url : String)
  | postImport (urls : List String)
  | pollGet (datasetName : String)
deriving DecidableEq

/-- Result of `submit_import` for one dataset: an early return without a
job (empty filtered or empty valid set), the fatal exit when the response
carries no Content-Location header, or the handed-off polling result. -/
inductive SubmitResult where
  | noop
  | fatalSubmission (exitCode : Nat)
  | polled (r : Option PollResult)
deriving DecidableEq

/-- Environment of one dataset's submission: the HEAD-probe outcomes,
whether the POST response carries the Content-Location header, and the
script of poll responses behind the status URL. -/
structure DatasetEnv where
  probe : String → Option HeadResp
  postHasContentLocation : Bool
  pollResponses : List PollResponse

/-- The `submit_import` flow for one dataset: filter the candidate URLs to
`.ndjson` names (empty means an early no-op return), probe each, validate,
POST when any URL survived, fail fatally (`sys.exit(1)`) when the response
has no Content-Location header, otherwise hand off to the poller.  The
first component records the HTTP requests issued. -/
def submit_import (env : DatasetEnv) (dataset_name : String) (resource_urls : List String) :
    List Action × SubmitResult :=
  let filtered := resource_urls.filter (fun u => pyEndswith u ".ndjson")
  if filtered.isEmpty then ([], .noop)
  else
    let headActs := filtered.map Action.headProbe
    let valid_urls := validate_urls env.probe filtered
    if valid_urls.isEmpty then (headActs, .noop)
    else if !env.postHasContentLocation then
      (headActs ++ [Action.postImport valid_urls], .fatalSubmission 1)
    else
      (headActs ++ [Action.postImport valid_urls, Action.pollGet dataset_name],
        .polled (poll_import_status env.pollResponses))

/-- Dataset-selection test of the `import` command's loop: `--skip-legacy`
drops names starting with "R4" and `--only` (when given and non-empty, the
Python truthiness test) requires its keyword as a substring. -/
def selected (skipLegacy : Bool) (only : Option String) (name : String) : Bool :=
  !(skipLegacy && pyStartswith name "R4") &&
    (match only with
     | none => true
     | some key => key == "" || containsStr key name)

/-- How a whole `import` run ends: the for-loop over the catalog ran to
completion, the process exited with the given code, or polling never saw a
terminal response. -/
inductive RunOutcome where
  | completedLoop
  | exited (code : Nat)
  | divergedPolling
deriving DecidableEq

/-- Exit code a polling result terminates the process with. -/
def exitCodeOf : PollResult → Nat
  | .fatal code => code
  | .completed _ code => code

/-- The `import` command's loop over the discovered catalog, each dataset
paired with its submission environment: skipped datasets are passed over,
a no-op submission lets the loop continue, and every submission that
reaches a fatal exit or an actually polled job ends the run there.  The
first component records, in order, the datasets a workflow was driven for
and each one's result. -/
def run_import (skipLegacy : Bool) (only : Option String) :
    List (String × List String × DatasetEnv) → List (String × SubmitResult) × RunOutcome
  | [] => ([], .completedLoop)
  | (name, urls, env) :: rest =>
    if !(selected skipLegacy only name) then run_import skipLegacy only rest
    else
      match (submit_import env name urls).2 with
      | .noop =>
        ((name, SubmitResult.noop) :: (run_import skipLegacy only rest).1,
          (run_import skipLegacy only rest).2)
      | .fatalSubmission code => ([(name, .fatalSubmission code)], .exited code)
      | .polled none => ([(name, .polled none)], .divergedPolling)
      | .polled (some pr) => ([(name, .polled (some pr))], .exited (exitCodeOf pr))

/-- Severity ordering of the specification's severity scale
(information < warning < error). -/
def sevRank (s : String) : Nat :=
  if s = "error" then 2 else if s = "warning" then 1 else 0

/-- A terminal (200, JSON, OperationOutcome-shaped) poll response carrying
the given issues. -/
def terminalOutcome (issues : List Issue) : PollResponse :=
  { contentType := "application/fhir+json", statusCode := 200,
    body := { resourceType := some "OperationOutcome", issue := some issues } }

/-- Selected dataset names of a catalog, in catalog order. -/
def selectedNames (skipLegacy : Bool) (only : Option String)
    (datasets : List (String × List String × DatasetEnv)) : List String :=
  (datasets.filter (fun d => selected skipLegacy only d.1)).map (fun d => d.1)

/-- A probe environment in which every HEAD request succeeds with 200 and a
JSON content type. -/
def probeAllOk : String → Option HeadResp :=
  fun _ => some { statusCode := 200, contentType := "application/json" }

/-- A dataset environment whose submission succeeds and whose job reports a
clean terminal outcome at the first poll. -/
def happyEnv : DatasetEnv :=
  { probe := probeAllOk, postHasContentLocation := true,
    pollResponses := [terminalOutcome []] }

/-- A dataset environment whose POST response lacks the Content-Location
header. -/
def noLocEnv : DatasetEnv :=
  { probe := probeAllOk, postHasContentLocation := false, pollResponses := [] }

/-- First catalog entry of the sequencing counterexample. -/
def dsA : String × List String × DatasetEnv :=
  ("A-META", [BUCKET_BASE ++ "/A-META-1.ndjson"], happyEnv)

/-- Second catalog entry of the sequencing counterexample. -/
def dsB : String × List String × DatasetEnv :=
  ("B-META", [BUCKET_BASE ++ "/B-META-1.ndjson"], happyEnv)

theorem foldl_and_eq (p : Issue → Bool) (l : List Issue) (b : Bool) :
    l.foldl (fun ok i => ok && p i) b = (b && l.all p) := by
  induction l generalizing b with
  | nil => simp
  | cons x xs ih => simp [ih, Bool.and_assoc]

theorem classifyIssues_eq_true_iff (issues : List Issue) :
    classifyIssues issues = true ↔
      ∀ i ∈ issues, i.severity.getD "unknown" ≠ "error" := by
  unfold classifyIssues
  rw [foldl_and_eq]
  simp [List.all_eq_true]

theorem sevRank_lt_error_iff (s : String) : sevRank s < sevRank "error" ↔ s ≠ "error" := by
  by_cases h : s = "error"
  · simp [sevRank, h]
  · simp only [sevRank, h, if_false, if_pos rfl, ne_eq, not_false_iff, iff_true]
    split <;> norm_num

/-- C1: for a terminal (200) OperationOutcome poll response whose issue
severities are drawn from information/warning/error, the Status Poller
classifies the job Succeeded iff every issue's severity ranks strictly below
error. -/
theorem poll_succeeded_iff_no_error_severity (issues : List Issue)
    (hdom : ∀ i ∈ issues, i.severity = some "information" ∨
      i.severity = some "warning" ∨ i.severity = some "error") :
    poll_step (terminalOutcome issues) = PollStep.terminal true 0 ↔
      ∀ i ∈ issues, ∀ s, i.severity = some s → sevRank s < sevRank "error" := by
  have hstep : poll_step (terminalOutcome issues) =
      PollStep.terminal (classifyIssues issues) 0 := rfl
  rw [hstep]
  simp only [PollStep.terminal.injEq, and_true]
  rw [classifyIssues_eq_true_iff]
  constructor
  · intro h i hi s hs
    have hne := h i hi
    rw [hs] at hne
    simp only [Option.getD_some] at hne
    exact (sevRank_lt_error_iff s).mpr hne
  · intro h i hi
    rcases hdom i hi with h1 | h1 | h1
    · rw [h1]; simp only [Option.getD_some]; decide
    · rw [h1]; simp only [Option.getD_some]; decide
    · exact absurd (h i hi "error" h1) (by simp)

/-- Witness for C1 at a concrete information/warning payload. -/
theorem poll_succeeded_iff_no_error_severity_witness :
    poll_step (terminalOutcome
        [{ severity := some "information", details := some "ok", diagnostics := none },
         { severity := some "warning", details := none, diagnostics := none }]) =
      PollStep.terminal true 0 ↔
      ∀ i ∈ [({ severity := some "information", details := some "ok", diagnostics := none } : Issue),
             { severity := some "warning", details := none, diagnostics := none }],
        ∀ s, i.severity = some s → sevRank s < sevRank "error" :=
  poll_succeeded_iff_no_error_severity _ (by decide)

/-- C10: a missing severity field defaults to the sentinel "unknown", which
counts as non-error; a terminal payload none of whose issues carries severity
exactly "error" — issues with no severity at all, or with values such as
"fatal", included — is classified Succeeded. -/
theorem poll_missing_severity_succeeds (issues : List Issue)
    (h : ∀ i ∈ issues, i.severity ≠ some "error") :
    (∀ i ∈ issues, i.severity = none → i.severity.getD "unknown" = "unknown") ∧
    poll_step (terminalOutcome issues) = PollStep.terminal true 0 := by
  constructor
  · intro i _ hi
    rw [hi]
    rfl
  · have hstep : poll_step (terminalOutcome issues) =
        PollStep.terminal (classifyIssues issues) 0 := rfl
    rw [hstep]
    simp only [PollStep.terminal.injEq, and_true]
    rw [classifyIssues_eq_true_iff]
    intro i hi
    cases hsev : i.severity with
    | none => decide
    | some s =>
      have hne := h i hi
      rw [hsev] at hne
      simp only [Option.getD_some]
      intro hcontra
      exact hne (by rw [hcontra])

/-- Witness for C10 at a payload with one severity-less issue and one
"fatal"-severity issue. -/
theorem poll_missing_severity_succeeds_witness :
    (∀ i ∈ [({ severity := none, details := none, diagnostics := none } : Issue),
            { severity := some "fatal", details := none, diagnostics := none }],
      i.severity = none → i.severity.getD "unknown" = "unknown") ∧
    poll_step (terminalOutcome
        [{ severity := none, details := none, diagnostics := none },
         { severity := some "fatal", details := none, diagnostics := none }]) =
      PollStep.terminal true 0 :=
  poll_missing_severity_succeeds _ (by decide)

/-- C3 (code bug): a terminal OperationOutcome carrying an error-severity
issue does halt the run, but the script reaches `sys.exit(0)` there — the very
same exit code as the Succeeded classification — instead of a distinct failure
code. -/
theorem poll_error_outcome_exits_zero :
    poll_import_status
        [terminalOutcome
          [{ severity := some "error", details := some "bad", diagnostics := none }]] =
      some (PollResult.completed false 0) ∧
    poll_import_status
        [terminalOutcome
          [{ severity := some "information", details := none, diagnostics := none }]] =
      some (PollResult.completed true 0) :=
  ⟨rfl, rfl⟩

theorem validate_urls_eq_filter (probe : String → Option HeadResp) (urls : List String) :
    validate_urls probe urls = urls.filter (urlPasses probe) := by
  induction urls with
  | nil => rfl
  | cons u rest ih =>
    simp only [validate_urls, List.filter_cons]
    cases hp : probe u with
    | none => simp [urlPasses, hp, ih]
    | some h =>
      by_cases hs : h.statusCode = 200
      · by_cases hc : containsStr "json" h.contentType
        · simp [urlPasses, hp, hs, hc, ih]
        · simp [urlPasses, hp, hs, hc, ih]
      · simp [urlPasses, hp, hs, ih]

/-- C6: the URL Validator's output is exactly the subsequence of its input
passing all three probe checks (connected without error, status 200, and a
JSON-indicating content type), in input order: it equals the filter of the
three-check predicate, is a sublist of the input, includes no failing URL,
and excludes no passing URL — so one URL's failure never aborts the rest. -/
theorem validate_urls_exact (probe : String → Option HeadResp) (urls : List String) :
    validate_urls probe urls = urls.filter (urlPasses probe) ∧
    List.Sublist (validate_urls probe urls) urls ∧
    (∀ u ∈ validate_urls probe urls, urlPasses probe u = true) ∧
    (∀ u ∈ urls, urlPasses probe u = true → u ∈ validate_urls probe urls) := by
  refine ⟨validate_urls_eq_filter probe urls, ?_, ?_, ?_⟩
  · rw [validate_urls_eq_filter]
    exact List.filter_sublist _
  · intro u hu
    rw [validate_urls_eq_filter] at hu
    exact (List.mem_filter.mp hu).2
  · intro u hu hp
    rw [validate_urls_eq_filter]
    exact List.mem_filter.mpr ⟨hu, hp⟩

/-- Witness for C6 at a concrete probe with one passing and one failing URL. -/
theorem validate_urls_exact_witness :
    validate_urls probeAllOk ["a.ndjson", "b.ndjson"] =
      ["a.ndjson", "b.ndjson"].filter (urlPasses probeAllOk) ∧
    List.Sublist (validate_urls probeAllOk ["a.ndjson", "b.ndjson"]) ["a.ndjson", "b.ndjson"] ∧
    (∀ u ∈ validate_urls probeAllOk ["a.ndjson", "b.ndjson"], urlPasses probeAllOk u = true) ∧
    (∀ u ∈ ["a.ndjson", "b.ndjson"], urlPasses probeAllOk u = true →
      u ∈ validate_urls probeAllOk ["a.ndjson", "b.ndjson"]) :=
  validate_urls_exact probeAllOk ["a.ndjson", "b.ndjson"]

/-- C8: when no candidate URL ends with the ".ndjson" suffix, the Import
Submitter issues no HTTP request at all — in particular it never POSTs
the import endpoint — and returns the no-op signal rather than an error,
creating no job. -/
theorem submit_empty_filter_noop (env : DatasetEnv) (dataset_name : String)
    (resource_urls : List String)
    (h : resource_urls.filter (fun u => pyEndswith u ".ndjson") = []) :
    submit_import env dataset_name resource_urls = ([], SubmitResult.noop) := by
  simp [submit_import, h]

/-- Witness for C8 at a candidate list with no ".ndjson" entry. -/
theorem submit_empty_filter_noop_witness :
    submit_import noLocEnv "DS" ["notes.txt"] = ([], SubmitResult.noop) :=
  submit_empty_filter_noop noLocEnv "DS" ["notes.txt"] (by decide)

/-- C5: whenever the import POST was actually sent, a response without the
Content-Location header makes the submission fail fatally (the script's
`sys.exit(1)`, halting the whole run) and no status polling is ever started;
conversely, a response carrying the header starts polling of the extracted
status location. -/
theorem submit_content_location_split (env : DatasetEnv) (dataset_name : String)
    (resource_urls : List String)
    (hpost : ∃ us, Action.postImport us ∈ (submit_import env dataset_name resource_urls).1) :
    (env.postHasContentLocation = false →
      (submit_import env dataset_name resource_urls).2 = SubmitResult.fatalSubmission 1 ∧
      ∀ n, Action.pollGet n ∉ (submit_import env dataset_name resource_urls).1) ∧
    (env.postHasContentLocation = true →
      Action.pollGet dataset_name ∈ (submit_import env dataset_name resource_urls).1 ∧
      (submit_import env dataset_name resource_urls).2 =
        SubmitResult.polled (poll_import_status env.pollResponses)) := by
  by_cases hf : (resource_urls.filter (fun u => pyEndswith u ".ndjson")).isEmpty
  · obtain ⟨us, hus⟩ := hpost
    simp [submit_import, hf] at hus
  · by_cases hv :
      (validate_urls env.probe (resource_urls.filter (fun u => pyEndswith u ".ndjson"))).isEmpty
    · obtain ⟨us, hus⟩ := hpost
      simp [submit_import, hf, hv] at hus
    · constructor
      · intro hn
        constructor
        · simp [submit_import, hf, hv, hn]
        · intro n hmem
          simp [submit_import, hf, hv, hn] at hmem
      · intro hy
        constructor
        · simp [submit_import, hf, hv, hy]
        · simp [submit_import, hf, hv, hy]

/-- Witness for C5 at a header-less submission environment with one valid
candidate URL. -/
theorem submit_content_location_split_witness :
    (noLocEnv.postHasContentLocation = false →
      (submit_import noLocEnv "DS" ["a.ndjson"]).2 = SubmitResult.fatalSubmission 1 ∧
      ∀ n, Action.pollGet n ∉ (submit_import noLocEnv "DS" ["a.ndjson"]).1) ∧
    (noLocEnv.postHasContentLocation = true →
      Action.pollGet "DS" ∈ (submit_import noLocEnv "DS" ["a.ndjson"]).1 ∧
      (submit_import noLocEnv "DS" ["a.ndjson"]).2 =
        SubmitResult.polled (poll_import_status noLocEnv.pollResponses)) :=
  submit_content_location_split noLocEnv "DS" ["a.ndjson"] ⟨["a.ndjson"], by decide⟩

theorem map_fst_pairs {β : Type} (f : String → β) (l : List String) :
    (l.map (fun p => (p, f p))).map Prod.fst = l := by
  induction l with
  | nil => rfl
  | cons x xs ih => simp only [List.map_cons, ih]

theorem mem_dedupStrs {a : String} : ∀ {l : List String}, a ∈ dedupStrs l ↔ a ∈ l := by
  intro l
  induction l with
  | nil => simp [dedupStrs]
  | cons x xs ih =>
    by_cases hx : x ∈ xs
    · simp only [dedupStrs, if_pos hx, ih, List.mem_cons]
      constructor
      · intro h
        exact Or.inr h
      · intro h
        rcases h with h | h
        · subst h
          exact hx
        · exact h
    · simp only [dedupStrs, if_neg hx, List.mem_cons, ih]

theorem nodup_dedupStrs : ∀ l : List String, (dedupStrs l).Nodup := by
  intro l
  induction l with
  | nil => simp [dedupStrs]
  | cons x xs ih =>
    by_cases hx : x ∈ xs
    · simpa [dedupStrs, hx] using ih
    · simp only [dedupStrs, if_neg hx]
      exact List.nodup_cons.mpr ⟨fun hmem => hx (mem_dedupStrs.mp hmem), ih⟩

theorem discover_keys (objects : List StorageObject) :
    (discover_datasets objects).map Prod.fst =
      (dedupStrs ((objects.map (fun o => relPath o.url)).map deriveName)).insertionSort
        strLeRel := by
  simp only [discover_datasets]
  exact map_fst_pairs _ _

/-- C7: the produced dataset names are exactly the distinct derived-name
prefixes of the listed objects (each relative path truncated by the marker
rule), without duplicates, enumerated in lexicographic (code-point) order. -/
theorem discover_names_sorted_distinct (objects : List StorageObject) :
    List.Sorted strLeRel ((discover_datasets objects).map Prod.fst) ∧
    ((discover_datasets objects).map Prod.fst).Nodup ∧
    (∀ n : String, n ∈ (discover_datasets objects).map Prod.fst ↔
      ∃ o ∈ objects, deriveName (relPath o.url) = n) := by
  rw [discover_keys]
  refine ⟨List.sorted_insertionSort strLeRel _, ?_, ?_⟩
  · exact ((List.perm_insertionSort strLeRel _).nodup_iff).mpr (nodup_dedupStrs _)
  · intro n
    rw [(List.perm_insertionSort strLeRel _).mem_iff, mem_dedupStrs]
    simp [List.map_map, List.mem_map]

/-- Witness for C7 at a concrete two-object listing. -/
theorem discover_names_sorted_distinct_witness :
    List.Sorted strLeRel ((discover_datasets
        [{ url := BUCKET_BASE ++ "/B-META-1.ndjson", size := 10 },
         { url := BUCKET_BASE ++ "/A-META-1.ndjson", size := 100 }]).map Prod.fst) ∧
    ((discover_datasets
        [{ url := BUCKET_BASE ++ "/B-META-1.ndjson", size := 10 },
         { url := BUCKET_BASE ++ "/A-META-1.ndjson", size := 100 }]).map Prod.fst).Nodup ∧
    (∀ n : String, n ∈ (discover_datasets
        [{ url := BUCKET_BASE ++ "/B-META-1.ndjson", size := 10 },
         { url := BUCKET_BASE ++ "/A-META-1.ndjson", size := 100 }]).map Prod.fst ↔
      ∃ o ∈ [({ url := BUCKET_BASE ++ "/B-META-1.ndjson", size := 10 } : StorageObject),
             { url := BUCKET_BASE ++ "/A-META-1.ndjson", size := 100 }],
        deriveName (relPath o.url) = n) :=
  discover_names_sorted_distinct _

/-- C4 counterexample: an object whose relative path lacks the "META" marker
still contributes its degenerate derived name — here "abc", the first three
characters of the relative path — as a key of the grouping result, instead of
that name being excluded. -/
theorem marker_absent_name_included :
    containsStr "META" (relPath (BUCKET_BASE ++ "/abcdef.ndjson")) = false ∧
    deriveName (relPath (BUCKET_BASE ++ "/abcdef.ndjson")) = "abc" ∧
    "abc" ∈ (discover_datasets
        [{ url := BUCKET_BASE ++ "/abcdef.ndjson", size := 7 }]).map Prod.fst := by
  refine ⟨by decide, by decide, ?_⟩
  rw [discover_keys, (List.perm_insertionSort strLeRel _).mem_iff, mem_dedupStrs]
  decide

/-- C4 (amended): a marker-absent relative path derives the name consisting of
its first three characters (Python `find` yields `-1`, so the slice bound
becomes 3), and that degenerate derived name is included — not excluded — as
a key of the grouping result whenever such an object is listed. -/
theorem marker_absent_name_is_key (objects : List StorageObject) (o : StorageObject)
    (ho : o ∈ objects)
    (habs : containsStr "META" (relPath o.url) = false) :
    deriveName (relPath o.url) = strTake (relPath o.url) 3 ∧
    deriveName (relPath o.url) ∈ (discover_datasets objects).map Prod.fst := by
  constructor
  · have hnone : findSub "META".data (relPath o.url).data = none := by
      cases hfs : findSub "META".data (relPath o.url).data with
      | none => rfl
      | some i =>
        exfalso
        have hc : containsStr "META" (relPath o.url) = true := by
          unfold containsStr
          rw [hfs]
          rfl
        rw [habs] at hc
        exact Bool.false_ne_true hc
    unfold deriveName pyFind
    rw [hnone]
    rfl
  · rw [discover_keys, (List.perm_insertionSort strLeRel _).mem_iff, mem_dedupStrs,
      List.map_map]
    exact List.mem_map.mpr ⟨o, ho, rfl⟩

/-- Witness for C4's amended statement at a concrete marker-absent object. -/
theorem marker_absent_name_is_key_witness :
    deriveName (relPath ({ url := BUCKET_BASE ++ "/abcdef.ndjson", size := 7 } : StorageObject).url) =
      strTake (relPath ({ url := BUCKET_BASE ++ "/abcdef.ndjson", size := 7 } : StorageObject).url) 3 ∧
    deriveName (relPath ({ url := BUCKET_BASE ++ "/abcdef.ndjson", size := 7 } : StorageObject).url) ∈
      (discover_datasets
        [{ url := BUCKET_BASE ++ "/abcdef.ndjson", size := 7 },
         { url := BUCKET_BASE ++ "/A-META-1.ndjson", size := 9 }]).map Prod.fst :=
  marker_absent_name_is_key _ _ (by decide) (by decide)

/-- C9: each produced dataset's recorded megabyte size, multiplied back by
1024×1024, equals the exact sum of the byte sizes of its matching objects —
the script's floating-point division by 1024*1024 modelled as exact rational
division. -/
theorem dataset_size_exact (objects : List StorageObject) :
    (discover_datasets objects).map (fun p => p.2.size * (1024 * 1024)) =
    (discover_datasets objects).map (fun p =>
      ((((objects.filter (fun o => containsStr p.1 o.url)).map (fun o => o.size)).sum : ℕ) :
        ℚ)) := by
  simp only [discover_datasets, List.map_map]
  refine List.map_congr_left ?_
  intro n _
  simp only [Function.comp_apply]
  rw [div_mul_cancel₀]
  norm_num

/-- Witness for C9 at a concrete two-object listing. -/
theorem dataset_size_exact_witness :
    (discover_datasets
        [{ url := BUCKET_BASE ++ "/A-META-1.ndjson", size := 1048576 },
         { url := BUCKET_BASE ++ "/A-META-2.ndjson", size := 524288 }]).map
      (fun p => p.2.size * (1024 * 1024)) =
    (discover_datasets
        [{ url := BUCKET_BASE ++ "/A-META-1.ndjson", size := 1048576 },
         { url := BUCKET_BASE ++ "/A-META-2.ndjson", size := 524288 }]).map
      (fun p =>
        (((([({ url := BUCKET_BASE ++ "/A-META-1.ndjson", size := 1048576 } : StorageObject),
             { url := BUCKET_BASE ++ "/A-META-2.ndjson", size := 524288 }].filter
              (fun o => containsStr p.1 o.url)).map (fun o => o.size)).sum : ℕ) : ℚ)) :=
  dataset_size_exact _

theorem dropLast_cons_of_cons {α : Type} (x y : α) (l : List α) :
    (x :: y :: l).dropLast = x :: (y :: l).dropLast :=
  rfl

/-- C2 counterexample: with two selected datasets whose submissions would both
reach a terminal job state, the run exits at the first dataset's terminal
state (the script's `sys.exit(0)` inside the poller), so the second selected
dataset is never driven — processing does not move on after a terminal
state. -/
theorem run_import_stops_after_first_terminal :
    selected false none "B-META" = true ∧
    (run_import false none [dsA, dsB]).1.map Prod.fst = ["A-META"] ∧
    (run_import false none [dsA, dsB]).2 = RunOutcome.exited 0 := by
  decide

/-- C2 (amended): the selected datasets are processed strictly sequentially in
catalog order — the driven datasets form an order-preserving prefix of the
selected ones and every driven dataset except possibly the last was a no-op
submission — but the loop only runs to completion when every selected
dataset's submission was a no-op: the first fatal submission or actually
polled job ends the run there, so at most one dataset's job is driven to a
terminal state per run and later selected datasets are never driven. -/
theorem run_import_sequential_prefix (skipLegacy : Bool) (only : Option String)
    (datasets : List (String × List String × DatasetEnv)) :
    (run_import skipLegacy only datasets).1.map Prod.fst =
      (selectedNames skipLegacy only datasets).take
        (run_import skipLegacy only datasets).1.length ∧
    (∀ r ∈ (run_import skipLegacy only datasets).1.dropLast, r.2 = SubmitResult.noop) ∧
    ((run_import skipLegacy only datasets).2 = RunOutcome.completedLoop ↔
      ((run_import skipLegacy only datasets).1.length =
          (selectedNames skipLegacy only datasets).length ∧
        ∀ r ∈ (run_import skipLegacy only datasets).1, r.2 = SubmitResult.noop)) := by
  induction datasets with
  | nil =>
    refine ⟨rfl, ?_, ?_⟩ <;> simp [run_import, selectedNames]
  | cons d rest ih =>
    obtain ⟨name, urls, env⟩ := d
    by_cases hsel : selected skipLegacy only name
    case neg =>
      have hrw : run_import skipLegacy only ((name, urls, env) :: rest) =
          run_import skipLegacy only rest := by
        simp [run_import, hsel]
      have hsn : selectedNames skipLegacy only ((name, urls, env) :: rest) =
          selectedNames skipLegacy only rest := by
        simp [selectedNames, hsel]
      rw [hrw, hsn]
      exact ih
    case pos =>
      have hsn : selectedNames skipLegacy only ((name, urls, env) :: rest) =
          name :: selectedNames skipLegacy only rest := by
        simp [selectedNames, hsel]
      cases hsub : (submit_import env name urls).2 with
      | noop =>
        have hrw : run_import skipLegacy only ((name, urls, env) :: rest) =
            ((name, SubmitResult.noop) :: (run_import skipLegacy only rest).1,
              (run_import skipLegacy only rest).2) := by
          simp [run_import, hsel, hsub]
        rw [hrw, hsn]
        refine ⟨?_, ?_, ?_⟩
        · simp only [List.map_cons, List.length_cons, List.take_succ_cons]
          exact congrArg (name :: ·) ih.1
        · intro r hr
          cases hl : (run_import skipLegacy only rest).1 with
          | nil =>
            rw [hl] at hr
            simp at hr
          | cons y ys =>
            rw [hl, dropLast_cons_of_cons] at hr
            rcases List.mem_cons.mp hr with h | h
            · rw [h]
            · exact ih.2.1 r (hl ▸ h)
        · simp only [List.length_cons]
          constructor
          · intro h
            obtain ⟨hlen, hall⟩ := ih.2.2.mp h
            refine ⟨by omega, ?_⟩
            intro r hr
            rcases List.mem_cons.mp hr with h1 | h1
            · rw [h1]
            · exact hall r h1
          · rintro ⟨hlen, hall⟩
            refine ih.2.2.mpr ⟨by omega, ?_⟩
            intro r hr
            exact hall r (List.mem_cons_of_mem _ hr)
      | fatalSubmission code =>
        have hrw : run_import skipLegacy only ((name, urls, env) :: rest) =
            ([(name, SubmitResult.fatalSubmission code)], RunOutcome.exited code) := by
          simp [run_import, hsel, hsub]
        rw [hrw, hsn]
        refine ⟨by simp, by simp, ?_⟩
        constructor
        · intro h
          simp at h
        · rintro ⟨_, hall⟩
          have := hall (name, SubmitResult.fatalSubmission code) (by simp)
          simp at this
      | polled r =>
        cases r with
        | none =>
          have hrw : run_import skipLegacy only ((name, urls, env) :: rest) =
              ([(name, SubmitResult.polled none)], RunOutcome.divergedPolling) := by
            simp [run_import, hsel, hsub]
          rw [hrw, hsn]
          refine ⟨by simp, by simp, ?_⟩
          constructor
          · intro h
            simp at h
          · rintro ⟨_, hall⟩
            have := hall (name, SubmitResult.polled none) (by simp)
            simp at this
        | some pr =>
          have hrw : run_import skipLegacy only ((name, urls, env) :: rest) =
              ([(name, SubmitResult.polled (some pr))], RunOutcome.exited (exitCodeOf pr)) := by
            simp [run_import, hsel, hsub]
          rw [hrw, hsn]
          refine ⟨by simp, by simp, ?_⟩
          constructor
          · intro h
            simp at h
          · rintro ⟨_, hall⟩
            have := hall (name, SubmitResult.polled (some pr)) (by simp)
            simp at this

/-- Witness for C2's amended statement at a concrete one-dataset catalog. -/
theorem run_import_sequential_prefix_witness :
    (run_import false none [dsA]).1.map Prod.fst =
      (selectedNames false none [dsA]).take (run_import false none [dsA]).1.length ∧
    (∀ r ∈ (run_import false none [dsA]).1.dropLast, r.2 = SubmitResult.noop) ∧
    ((run_import false none [dsA]).2 = RunOutcome.completedLoop ↔
      ((run_import false none [dsA]).1.length = (selectedNames false none [dsA]).length ∧
        ∀ r ∈ (run_import false none [dsA]).1, r.2 = SubmitResult.noop)) :=
  run_import_sequential_prefix false none [dsA]

end FhirImport
